import Mathlib

/-!
Shallow embedding of the PPM/PGM/PBM decoder of rust-ppmviewer
(src/main.rs) and proofs about it.

Conventions of the embedding:
- A file is a `List Nat` of byte values (each source byte is 0-255).
- Rust `i32` values are modelled as `Int`; `str::parse::<i32>` is modelled
  byte-accurately including the sign and the overflow check.
- A Rust function that can panic (`unwrap` on a parse failure or an
  out-of-bounds index) is modelled as returning `Option`, with `none`
  standing for the panic/abort.
- The nested byte-reading loops of `read_ppm_header` consume exactly one
  byte per iteration, so they are embedded as a three-mode state machine
  (`ScanMode.outer` = top of the outer `while`, `ScanMode.inner` =
  read-until-whitespace loop, `ScanMode.comment` = comment-skipping loop)
  that recurses structurally on the remaining byte list.
-/

namespace PpmViewer

/-- Format type of the file, from the two magic-number bytes (src/main.rs `PpmType`). -/
inductive PpmType where
  | P1
  | P2
  | P3
  | P4
  | P5
  | P6
  | P0
deriving DecidableEq, Repr

/-- Header data (src/main.rs `PPMHeader`). -/
structure PPMHeader where
  ppm_type : PpmType
  width : Int
  height : Int
  max_value : Int
deriving DecidableEq, Repr

/-- Default header, `PPMHeader::new()`. -/
def PPMHeader.new : PPMHeader := ⟨PpmType.P0, 0, 0, 0⟩

/-- One decoded pixel (src/main.rs `PpmValue`). -/
structure PpmValue where
  r : Int
  g : Int
  b : Int
deriving DecidableEq, Repr

/-- Constructor `PpmValue::new`. -/
def PpmValue.new (red green blue : Int) : PpmValue := ⟨red, green, blue⟩

/-- Image: header plus sample sequence (src/main.rs `PPM`). -/
structure PPM where
  header : PPMHeader
  values : List PpmValue
deriving DecidableEq, Repr

/-- Default image `PPM::new()`. -/
def PPM.new : PPM := ⟨PPMHeader.new, []⟩

/-- Bytes of an ASCII string, used to write concrete test inputs. -/
def strBytes (s : String) : List Nat := s.data.map Char.toNat

/-- Value of a nonempty all-decimal-digit byte list; `none` otherwise. -/
def decDigits (l : List Nat) : Option Nat :=
  if l = [] then none
  else l.foldl
    (fun acc b => match acc with
      | none => none
      | some v => if 48 ≤ b ∧ b ≤ 57 then some (v * 10 + (b - 48)) else none)
    (some 0)

/-- Rust `str::parse::<i32>` on a byte list: optional single sign, then one
or more decimal digits, and the value must fit in `i32`; `none` is the
`Err` case. -/
def parse_i32 (s : List Nat) : Option Int :=
  match s with
  | 43 :: rest => (decDigits rest).bind
      (fun v => if v ≤ 2147483647 then some (Int.ofNat v) else none)
  | 45 :: rest => (decDigits rest).bind
      (fun v => if v ≤ 2147483648 then some (-(Int.ofNat v)) else none)
  | _ => (decDigits s).bind
      (fun v => if v ≤ 2147483647 then some (Int.ofNat v) else none)

/-- Rust `parse::<i32>().unwrap_or_default()`. -/
def parse_i32_default (s : List Nat) : Int := (parse_i32 s).getD 0

/-- Magic-number dispatch of `read_ppm_header` (the `match magic_number`). -/
def magicType (b0 b1 : Nat) : PpmType :=
  if b0 = 80 ∧ b1 = 49 then PpmType.P1
  else if b0 = 80 ∧ b1 = 50 then PpmType.P2
  else if b0 = 80 ∧ b1 = 51 then PpmType.P3
  else if b0 = 80 ∧ b1 = 52 then PpmType.P4
  else if b0 = 80 ∧ b1 = 53 then PpmType.P5
  else if b0 = 80 ∧ b1 = 54 then PpmType.P6
  else PpmType.P0

/-- The loop-exit condition of `read_ppm_header`: all required header
fields are set (line 208 of src/main.rs). -/
def allSet (h : PPMHeader) : Prop :=
  h.width ≠ 0 ∧ h.height ≠ 0 ∧
    (h.max_value ≠ 0 ∨ h.ppm_type = PpmType.P1 ∨ h.ppm_type = PpmType.P4)

instance (h : PPMHeader) : Decidable (allSet h) := by
  unfold allSet; infer_instance

/-- Field assignment after a token is completed (lines 262-273 of
src/main.rs): width first, then height, then - unless the format is a
bitmap - max_value; a parse failure yields 0 (`unwrap_or_default`). -/
def assignField (h : PPMHeader) (tok : List Nat) : PPMHeader :=
  if h.width = 0 then { h with width := parse_i32_default tok }
  else if h.height = 0 then { h with height := parse_i32_default tok }
  else if h.max_value = 0 ∧ h.ppm_type ≠ PpmType.P1 ∧ h.ppm_type ≠ PpmType.P4 then
    { h with max_value := parse_i32_default tok }
  else h

/-- Control position inside the nested loops of `read_ppm_header`. -/
inductive ScanMode where
  | outer
  | inner
  | comment
deriving DecidableEq, Repr

/-- The byte-scanning loops of `read_ppm_header` (lines 206-277 of
src/main.rs), embedded as a state machine consuming one byte per step.
Arguments: remaining bytes, mode, current token buffer (`number_byte`),
`byte_position`, header. At end of stream the pending token (if any) is
assigned and the final all-set check runs, exactly as the Rust loops
cascade their EOF breaks. -/
def scan : List Nat → ScanMode → List Nat → Nat → PPMHeader → Nat × PPMHeader
  | [], ScanMode.outer, _, bp, hdr =>
      if allSet hdr then (bp + 1, hdr) else (bp, hdr)
  | [], _, tok, bp, hdr =>
      let h2 := assignField hdr tok
      if allSet h2 then (bp + 1, h2) else (bp, h2)
  | b :: rest, ScanMode.outer, _, bp, hdr =>
      if allSet hdr then (bp + 1, hdr)
      else if b = 10 ∨ b = 32 ∨ b = 35 ∨ b = 13 then
        scan rest ScanMode.inner [] bp hdr
      else
        scan rest ScanMode.inner [b] (bp + 1) hdr
  | b :: rest, ScanMode.inner, tok, bp, hdr =>
      if b = 10 ∨ b = 13 ∨ b = 32 then
        scan rest ScanMode.outer [] (bp + 1) (assignField hdr tok)
      else if b = 35 then
        scan rest ScanMode.comment tok (bp + 1) hdr
      else
        scan rest ScanMode.inner (tok ++ [b]) (bp + 1) hdr
  | b :: rest, ScanMode.comment, tok, bp, hdr =>
      if b = 35 ∨ b = 13 ∨ b = 10 then
        scan rest ScanMode.inner tok (bp + 1) hdr
      else
        scan rest ScanMode.comment tok (bp + 1) hdr

/-- Embeds `read_ppm_header` (src/main.rs lines 182-280). The input is the
file's byte stream; `none` models the `read_exact(&mut magic_number).unwrap()`
panic on a file shorter than two bytes. Otherwise the two magic bytes fix
the type, `byte_position` starts at 2, and the scanning loops run. -/
def read_ppm_header (stream : List Nat) : Option (Nat × PPMHeader) :=
  match stream with
  | b0 :: b1 :: rest =>
      some (scan rest ScanMode.outer [] 2
        { PPMHeader.new with ppm_type := magicType b0 b1 })
  | _ => none

/-- Drops a final carriage-return byte, as `BufRead::lines` does. -/
def strip_cr (l : List Nat) : List Nat :=
  if l.getLast? = some 13 then l.dropLast else l

/-- Splits a byte stream at line-feed bytes, as `BufRead::lines` does:
the terminator is not part of a line and a trailing terminator produces
no extra empty line. -/
def split_lf : List Nat → List (List Nat)
  | [] => []
  | 10 :: rest => [] :: split_lf rest
  | b :: rest =>
      match split_lf rest with
      | [] => [[b]]
      | t :: ts => (b :: t) :: ts

/-- The line sequence `reader.lines()` yields for a byte stream. -/
def rust_lines (s : List Nat) : List (List Nat) := (split_lf s).map strip_cr

/-- Rust `split(' ')` on a byte list: splits at every space byte, keeping
empty pieces (so the result is always nonempty). -/
def splitOnSpace : List Nat → List (List Nat)
  | [] => [[]]
  | 32 :: rest => [] :: splitOnSpace rest
  | b :: rest =>
      match splitOnSpace rest with
      | [] => [[b]]
      | t :: ts => (b :: t) :: ts

/-- ASCII whitespace recognized by Rust `char::is_whitespace` (the inputs
this decoder sees are ASCII lines, already split at line feeds). -/
def isRustWs (b : Nat) : Bool := (9 ≤ b ∧ b ≤ 13) ∨ b = 32

/-- Token accumulator for `split_whitespace`. -/
def splitWsGo (cur : List Nat) : List Nat → List (List Nat)
  | [] => if cur = [] then [] else [cur]
  | b :: rest =>
      if isRustWs b then
        if cur = [] then splitWsGo [] rest else cur :: splitWsGo [] rest
      else splitWsGo (cur ++ [b]) rest

/-- Rust `split_whitespace` on a byte list: whitespace-separated nonempty
tokens. -/
def splitWs (l : List Nat) : List (List Nat) := splitWsGo [] l

/-- Truncation point of a data line (src/main.rs lines 145-149): the index
of the first hash byte, except that `find` returning `None` and `find`
returning `Some(0)` both yield 0 and select the whole line. -/
def data_offset (va : List Nat) : Nat :=
  if (va.findIdx? (fun b => b == 35)).getD 0 = 0 then va.length
  else (va.findIdx? (fun b => b == 35)).getD 0

/-- Clamp to the `i32` range, the behavior of Rust's saturating
float-to-int `as i32` cast. -/
def clamp_i32 (v : Int) : Int :=
  if v < -2147483648 then -2147483648
  else if v > 2147483647 then 2147483647
  else v

/-- Grayscale scaling used by the P2 and P5 paths. The source computes
`((val as f32 / max_value as f32) * 255.0) as i32` in IEEE-754 `f32`
arithmetic; that floating-point computation has no faithful counterpart in
this embedding, so it is approximated here by exact rational truncation
toward zero with the saturating cast (including the `max_value = 0`
division cases: NaN casts to 0, infinities saturate). The approximation
agrees with `f32` on small inputs; no theorem in this file depends on this
definition's values (the claim about it is settled as not statable). -/
def scale_to_255 (val max_value : Int) : Int :=
  if max_value = 0 then
    if val = 0 then 0
    else if 0 < val then 2147483647
    else -2147483648
  else clamp_i32 (Int.tdiv (val * 255) max_value)

/-- Sample built from one graymap token in the ASCII P2 branch
(src/main.rs lines 156-163): the scaled value on all three channels. -/
def p2_sample (max_value v : Int) : PpmValue :=
  PpmValue.new (scale_to_255 v max_value) (scale_to_255 v max_value) (scale_to_255 v max_value)

/-- Sample built from one bitmap token in the ASCII P1 branch
(src/main.rs lines 164-173): 0 stays black, any other value is white. -/
def p1_sample (v : Int) : PpmValue :=
  if v = 0 then PpmValue.new 0 0 0 else PpmValue.new 255 255 255

/-- Processing of one retained line of the ASCII decoder (the body of the
`for line in reader.lines()` loop of src/main.rs lines 119-174, after the
first-line skip). `none` models a panic: an `unwrap` on a failed
`parse::<i32>` in the dimensions line or a data line, or an out-of-bounds
index (`bar[1]`, `x[2]`). -/
def ascii_line (dat : PPM) (va : List Nat) : Option PPM :=
  if va.head? = some 35 then some dat
  else if dat.header.width = 0 ∧ dat.header.height = 0 then
    match (splitOnSpace va).mapM parse_i32 with
    | none => none
    | some bar =>
      match bar with
      | b0 :: b1 :: _ =>
          some { dat with header := { dat.header with width := b0, height := b1 } }
      | _ => none
  else if dat.header.max_value = 0 ∧ dat.header.ppm_type ≠ PpmType.P1 then
    some { dat with header := { dat.header with max_value := parse_i32_default va } }
  else
    match (splitWs (va.take (data_offset va))).mapM parse_i32 with
    | none => none
    | some x =>
      if dat.header.ppm_type = PpmType.P3 then
        match x with
        | x0 :: x1 :: x2 :: _ =>
            some { dat with values := dat.values ++ [PpmValue.new x0 x1 x2] }
        | _ => none
      else if dat.header.ppm_type = PpmType.P2 then
        some { dat with values := dat.values ++ x.map (p2_sample dat.header.max_value) }
      else if dat.header.ppm_type = PpmType.P1 then
        some { dat with values := dat.values ++ x.map p1_sample }
      else some dat

/-- Folds `ascii_line` over the retained lines. -/
def asciiLines : PPM → List (List Nat) → Option PPM
  | dat, [] => some dat
  | dat, va :: rest => (ascii_line dat va).bind (fun d => asciiLines d rest)

/-- Embeds `read_ppm_ascii_file` (src/main.rs lines 110-177): re-reads the
file line by line, skipping the first line, and returns the accumulated
sample values; `none` models a panic inside the loop. -/
def read_ppm_ascii_file (stream : List Nat) (ppm_type : PpmType) : Option (List PpmValue) :=
  let dat0 : PPM := { PPM.new with header := { PPM.new.header with ppm_type := ppm_type } }
  match rust_lines stream with
  | [] => some dat0.values
  | _ :: rest => (asciiLines dat0 rest).map (fun d => d.values)

/-- Embeds `get_bit_at` (src/main.rs lines 353-359): `Ok` of bit `n` of the
byte for `n < 8`, `Err(())` otherwise. -/
def get_bit_at (input n : Nat) : Except Unit Bool :=
  if n < 8 then Except.ok (input &&& (1 <<< n) != 0) else Except.error ()

/-- One iteration block of the P4 branch (src/main.rs lines 326-342): the
`for i in (0..8).rev()` loop over one data byte. `none` models the panic of
`get_bit_at(byte_for[0], i).unwrap()`. -/
def decode_p4_byte (b : Nat) : Option (List PpmValue) :=
  ([7, 6, 5, 4, 3, 2, 1, 0] : List Nat).mapM
    (fun i =>
      match get_bit_at b i with
      | Except.error _ => none
      | Except.ok pixel_data =>
          if pixel_data then some (PpmValue.new 0 0 0)
          else some (PpmValue.new 255 255 255))

/-- The P4 reading loop (src/main.rs lines 322-348): one byte at a time
until end of stream, eight samples per byte. -/
def p4_loop : List Nat → Option (List PpmValue)
  | [] => some []
  | b :: rest =>
      (decode_p4_byte b).bind
        (fun vs => (p4_loop rest).map (fun tail => vs ++ tail))

/-- The P5 reading loop (src/main.rs lines 307-321): one byte per sample,
scaled against `max_value` on all three channels. -/
def p5_loop (max_value : Int) : List Nat → List PpmValue
  | [] => []
  | b :: rest => p2_sample max_value (Int.ofNat b) :: p5_loop max_value rest

/-- The P6 reading loop (src/main.rs lines 293-306). The source reads into
a reused 3-byte buffer and only checks `n != 0`, so when fewer than three
bytes remain the unfilled buffer positions keep their previous contents
(initially zero); `prev` carries that buffer. -/
def p6_loop : List Nat → Nat × Nat × Nat → List PpmValue
  | [], _ => []
  | [b0], (_, p1, p2) => [PpmValue.new (Int.ofNat b0) (Int.ofNat p1) (Int.ofNat p2)]
  | [b0, b1], (_, _, p2) => [PpmValue.new (Int.ofNat b0) (Int.ofNat b1) (Int.ofNat p2)]
  | b0 :: b1 :: b2 :: rest, _ =>
      PpmValue.new (Int.ofNat b0) (Int.ofNat b1) (Int.ofNat b2) :: p6_loop rest (b0, b1, b2)

/-- Embeds `read_ppm_binary_image_data` (src/main.rs lines 282-351): seeks
to `start_position` and streams the remaining bytes through the branch
selected by the header's type. `none` models the `unwrap` panic inside the
P4 branch (which in fact never fires, see the C10 theorem). -/
def read_ppm_binary_image_data (stream : List Nat) (ppm_object : PPM)
    (start_position : Nat) : Option (List PpmValue) :=
  let data := stream.drop start_position
  if ppm_object.header.ppm_type = PpmType.P6 then
    some (p6_loop data (0, 0, 0))
  else if ppm_object.header.ppm_type = PpmType.P5 then
    some (p5_loop ppm_object.header.max_value data)
  else if ppm_object.header.ppm_type = PpmType.P4 then
    p4_loop data
  else some []

/-- Application state (src/main.rs `World`). -/
structure World where
  frame : Option PPM
  single_draw : Bool
  has_been_drawn : Bool
deriving DecidableEq, Repr

/-- Constructor `World::new()`. -/
def World.new : World := ⟨none, true, false⟩

/-- Rust `as u8` on an `i32`: the low eight bits. -/
def u8_of_i32 (v : Int) : Nat := (v % 256).toNat

/-- The frame-writing loop of `World::draw` (src/main.rs lines 473-477):
`frame.chunks_exact_mut(4)` walks the buffer four bytes at a time (a
trailing remainder shorter than four bytes is left untouched) and chunk
`i` receives R, G, B, 255 from `values[i]`; `none` models the index panic
when the sample list is too short. -/
def write_pixels (values : List PpmValue) : Nat → List Nat → Option (List Nat)
  | i, _ :: _ :: _ :: _ :: rest =>
      match values.get? i with
      | none => none
      | some v =>
          (write_pixels values (i + 1) rest).map
            (fun r => u8_of_i32 v.r :: u8_of_i32 v.g :: u8_of_i32 v.b :: 255 :: r)
  | _, rest => some rest

/-- Embeds `World::draw` (src/main.rs lines 468-483). Returns the updated
state and frame buffer; `none` models the `self.frame.as_ref().unwrap()`
panic or the index panic inside the write loop. -/
def World.draw (w : World) (frame : List Nat) : Option (World × List Nat) :=
  if w.single_draw = true ∧ w.has_been_drawn = true then some (w, frame)
  else
    match w.frame with
    | none => none
    | some ppm =>
      let fr :=
        if ppm.header.ppm_type ≠ PpmType.P0 then write_pixels ppm.values 0 frame
        else some frame
      match fr with
      | none => none
      | some frame2 =>
          if w.single_draw = true ∧ w.has_been_drawn = false then
            some ({ w with has_been_drawn := true }, frame2)
          else some (w, frame2)

/-- Outcome of the argument handling at the top of `main`. -/
inductive MainAction where
  | exit_with_message (msg : String) (code : Nat)
  | run_viewer (filename : String)
deriving DecidableEq, Repr

/-- Embeds the command-line handling of `main` (src/main.rs lines 364-377):
`args` is `env::args().collect()`, whose first element is the program path;
with no positional argument, or an empty first positional argument, the
program prints a message and exits with status 0 before any decoding;
otherwise it proceeds to decode the named file. -/
def main_select (args : List String) : MainAction :=
  if args.length ≤ 1 then MainAction.exit_with_message "File Name is required." 0
  else
    let filename := args.getD 1 ""
    if filename = "" then MainAction.exit_with_message "File Name is required." 0
    else MainAction.run_viewer filename

/-- Modelled from the spec's words (claim C4): each data byte is unpacked
from its most significant bit down to its least significant bit, bit `n`
being `(byte >> n) & 1`; bit value 1 yields a black sample and bit value 0
a white one. Stated separately from the source embedding so the two can be
proved equal. -/
def spec_p4_bit_samples (b : Nat) : List PpmValue :=
  ([7, 6, 5, 4, 3, 2, 1, 0] : List Nat).map
    (fun n =>
      if (b >>> n) &&& 1 = 1 then PpmValue.new 0 0 0 else PpmValue.new 255 255 255)

/-- Modelled from the spec's words (claim C5): consecutive groups of three
data bytes each yield one sample carrying the byte values unchanged. -/
def spec_p6_groups : List Nat → List PpmValue
  | b0 :: b1 :: b2 :: rest =>
      PpmValue.new (Int.ofNat b0) (Int.ofNat b1) (Int.ofNat b2) :: spec_p6_groups rest
  | _ => []

/-- The one-line ASCII pixmap input named by claim C1. -/
def exC1 : List Nat :=
  strBytes "P3\n3 2\n255\n255 0 0 0 255 0 0 0 255 255 255 0 0 255 255 255 255 255\n"

/-- The same pixel data as `exC1`, but with each RGB triple on a line of
its own. -/
def exC1_lines : List Nat :=
  strBytes "P3\n3 2\n255\n255 0 0\n0 255 0\n0 0 255\n255 255 0\n0 255 255\n255 255 255\n"

/-- The six RGB triples listed in claim C1, in order. -/
def exC1_six : List PpmValue :=
  [PpmValue.new 255 0 0, PpmValue.new 0 255 0, PpmValue.new 0 0 255,
    PpmValue.new 255 255 0, PpmValue.new 0 255 255, PpmValue.new 255 255 255]

/-- An ASCII pixmap whose dimensions line carries a malformed numeric
token (claim C2). -/
def exC2 : List Nat := strBytes "P3\n3x 2\n"

/-- A binary pixmap whose header carries only malformed numeric tokens
(claim C2). -/
def exC2hdr : List Nat := strBytes "P6\nZZ QQ\n"

/-- An ASCII pixmap with a well-formed header but a malformed numeric
token in a sample-data line (claim C2). -/
def exC2data : List Nat := strBytes "P3\n1 1\n255\n9 zz 9\n"

/-- A binary pixmap header whose width and height are separated by two
space bytes (claim C3); its pixel data starts at byte offset 12. -/
def exC3 : List Nat := strBytes "P6\n3  2\n255\nD"

/-- A header-token byte list: nonempty and free of the whitespace and
comment bytes that would end or alter the token. -/
def goodTok (t : List Nat) : Prop :=
  t ≠ [] ∧ ∀ b ∈ t, b ≠ 10 ∧ b ≠ 13 ∧ b ≠ 32 ∧ b ≠ 35

instance (t : List Nat) : Decidable (goodTok t) := by
  unfold goodTok
  infer_instance

/-- Whitespace bytes recognized by the header scanner. -/
def isWsByte (b : Nat) : Prop := b = 10 ∨ b = 13 ∨ b = 32

instance (b : Nat) : Decidable (isWsByte b) := by
  unfold isWsByte
  infer_instance

end PpmViewer

namespace PpmViewer

example : strBytes "P3" = [80, 51] := by decide

example : parse_i32 (strBytes "255") = some 255 := by decide
example : parse_i32 (strBytes "-12") = some (-12) := by decide
example : parse_i32 (strBytes "3x") = none := by decide
example : parse_i32 [] = none := by decide
example : parse_i32_default (strBytes "ZZ") = 0 := by decide

example :
    read_ppm_header (strBytes "P6\n3 2\n255\nD")
      = some (11, ⟨PpmType.P6, 3, 2, 255⟩) := by decide

example :
    read_ppm_header (strBytes "P6\n3  2\n255\nD")
      = some (11, ⟨PpmType.P6, 3, 2, 255⟩) := by decide

example :
    read_ppm_header (strBytes "P6\nZZ QQ\n")
      = some (8, ⟨PpmType.P6, 0, 0, 0⟩) := by decide

example :
    rust_lines (strBytes "P3\n3 2\n255\n1 2 3\n")
      = [strBytes "P3", strBytes "3 2", strBytes "255", strBytes "1 2 3"] := by decide

example :
    read_ppm_ascii_file
      (strBytes "P3\n3 2\n255\n255 0 0 0 255 0 0 0 255 255 255 0 0 255 255 255 255 255\n")
      PpmType.P3
      = some [PpmValue.new 255 0 0] := by decide

example :
    read_ppm_ascii_file
      (strBytes "P3\n3 2\n255\n255 0 0\n0 255 0\n0 0 255\n255 255 0\n0 255 255\n255 255 255\n")
      PpmType.P3
      = some [PpmValue.new 255 0 0, PpmValue.new 0 255 0, PpmValue.new 0 0 255,
          PpmValue.new 255 255 0, PpmValue.new 0 255 255, PpmValue.new 255 255 255] := by
  decide

example :
    read_ppm_ascii_file (strBytes "P3\n3x 2\n") PpmType.P3 = none := by decide

example :
    read_ppm_ascii_file (strBytes "P1\n2 2\n0 1\n1 0\n") PpmType.P1
      = some [PpmValue.new 0 0 0, PpmValue.new 255 255 255,
          PpmValue.new 255 255 255, PpmValue.new 0 0 0] := by decide

example :
    read_ppm_ascii_file (strBytes "P2\n1 1\n100\n50\n") PpmType.P2
      = some [PpmValue.new 127 127 127] := by decide

example : get_bit_at 128 7 = Except.ok true := rfl
example : get_bit_at 128 8 = Except.error () := rfl

example :
    decode_p4_byte 128
      = some (PpmValue.new 0 0 0 :: List.replicate 7 (PpmValue.new 255 255 255)) := by
  decide

example :
    read_ppm_binary_image_data [1, 2, 3, 4, 5, 6] ⟨⟨PpmType.P6, 2, 1, 255⟩, []⟩ 0
      = some [PpmValue.new 1 2 3, PpmValue.new 4 5 6] := by decide

example :
    read_ppm_binary_image_data [1, 2, 3, 4] ⟨⟨PpmType.P6, 2, 1, 255⟩, []⟩ 0
      = some [PpmValue.new 1 2 3, PpmValue.new 4 2 3] := by decide

example :
    World.draw ⟨some ⟨⟨PpmType.P3, 1, 1, 255⟩, [PpmValue.new 1 2 3]⟩, true, true⟩ [9, 9, 9, 9]
      = some (⟨some ⟨⟨PpmType.P3, 1, 1, 255⟩, [PpmValue.new 1 2 3]⟩, true, true⟩,
          [9, 9, 9, 9]) := by decide

example :
    World.draw ⟨some ⟨⟨PpmType.P3, 1, 1, 255⟩, [PpmValue.new 1 2 3]⟩, true, false⟩ [9, 9, 9, 9]
      = some (⟨some ⟨⟨PpmType.P3, 1, 1, 255⟩, [PpmValue.new 1 2 3]⟩, true, true⟩,
          [1, 2, 3, 255]) := by decide

example : main_select [] = MainAction.exit_with_message "File Name is required." 0 := by decide
example : main_select ["prog"] = MainAction.exit_with_message "File Name is required." 0 := by decide
example : main_select ["prog", ""] = MainAction.exit_with_message "File Name is required." 0 := by decide
example : main_select ["prog", "a.ppm"] = MainAction.run_viewer "a.ppm" := by decide

end PpmViewer

namespace PpmViewer

/-- The two ways the source and the claims read a bit: testing
`byte & (1 << n)` against zero (the source) equals testing
`(byte >> n) & 1` against zero (the claims). -/
theorem bit_and_shift_forms (b n : Nat) :
    (b &&& (1 <<< n) != 0) = ((b >>> n) &&& 1 != 0) := by
  rw [Nat.one_shiftLeft, Nat.and_two_pow, Nat.and_one_is_mod, Nat.shiftRight_eq_div_pow]
  have hp : (2 : Nat) ^ n ≠ 0 := Nat.pos_iff_ne_zero.mp (Nat.pos_pow_of_pos n (by norm_num))
  rcases Bool.eq_false_or_eq_true (b.testBit n) with hb | hb <;>
    rw [hb] <;> rw [Nat.testBit_to_div_mod] at hb <;> simp at hb <;> simp [hb, hp]

/-- A low bit read as a Bool equals the propositional form used in
`spec_p4_bit_samples`. -/
theorem shift_one_bit_cases (b n : Nat) :
    (b >>> n) &&& 1 = 1 ∨ (b >>> n) &&& 1 = 0 := by
  rw [Nat.and_one_is_mod]
  omega

/-- One loop block of the P4 branch agrees with the claim's per-bit rule. -/
theorem p4_bit_sample (b i : Nat) (hi : i < 8) :
    (match get_bit_at b i with
      | Except.error _ => none
      | Except.ok pixel_data =>
          if pixel_data then some (PpmValue.new 0 0 0)
          else some (PpmValue.new 255 255 255))
    = some (if (b >>> i) &&& 1 = 1 then PpmValue.new 0 0 0
        else PpmValue.new 255 255 255) := by
  simp only [get_bit_at, if_pos hi]
  rw [bit_and_shift_forms]
  rcases shift_one_bit_cases b i with hb | hb <;> simp [hb]

/-- The per-byte decoder agrees with the claim's per-bit rule. -/
theorem decode_p4_byte_eq (b : Nat) :
    decode_p4_byte b = some (spec_p4_bit_samples b) := by
  simp only [decode_p4_byte, spec_p4_bit_samples, List.mapM_cons, List.mapM_nil,
    p4_bit_sample b 7 (by norm_num), p4_bit_sample b 6 (by norm_num),
    p4_bit_sample b 5 (by norm_num), p4_bit_sample b 4 (by norm_num),
    p4_bit_sample b 3 (by norm_num), p4_bit_sample b 2 (by norm_num),
    p4_bit_sample b 1 (by norm_num), p4_bit_sample b 0 (by norm_num)]
  rfl

/-- The whole P4 loop never panics and flattens the per-byte samples in
stream order. -/
theorem p4_loop_eq :
    ∀ data : List Nat, p4_loop data = some ((data.map spec_p4_bit_samples).flatten)
  | [] => rfl
  | b :: rest => by
      simp [p4_loop, decode_p4_byte_eq b, p4_loop_eq rest]

/-- The per-bit samples of a byte list have eight entries per byte. -/
theorem spec_p4_len (data : List Nat) :
    ((data.map spec_p4_bit_samples).flatten).length = 8 * data.length := by
  induction data with
  | nil => rfl
  | cons b rest ih =>
      simp only [List.map_cons, List.flatten_cons, List.length_append, ih,
        List.length_cons, spec_p4_bit_samples, List.length_map, List.length_nil]
      ring

/-- Each data byte contributes exactly eight samples. -/
theorem p4_loop_length (data : List Nat) :
    (p4_loop data).map List.length = some (8 * data.length) := by
  rw [p4_loop_eq]
  exact congrArg some (spec_p4_len data)

/-- On a stream whose length is a multiple of three, the P6 loop emits
exactly the input's groups of three, unchanged (the carried stale buffer
is never exposed). -/
theorem p6_loop_groups :
    ∀ data : List Nat, 3 ∣ data.length →
      ∀ prev : Nat × Nat × Nat, p6_loop data prev = spec_p6_groups data
  | [], _, _ => rfl
  | [_], hd, _ => by
      simp only [List.length_cons, List.length_nil] at hd
      exact absurd hd (by omega)
  | [_, _], hd, _ => by
      simp only [List.length_cons, List.length_nil] at hd
      exact absurd hd (by omega)
  | b0 :: b1 :: b2 :: rest, hd, _ => by
      have hr : 3 ∣ rest.length := by
        simp only [List.length_cons] at hd
        omega
      simp [p6_loop, spec_p6_groups, p6_loop_groups rest hr (b0, b1, b2)]

/-- C4: the binary bitmap (P4) decoder unpacks every data byte from bit 7
down to bit 0, with bit `n` read as `(byte >> n) & 1`; bit value 1 yields
Sample(0,0,0) and bit value 0 yields Sample(255,255,255); in particular
the byte 0b10000000 yields one black sample followed by seven white ones. -/
theorem c4_claim (wd ht mx : Int) (vals : List PpmValue) (data : List Nat) :
    read_ppm_binary_image_data data ⟨⟨PpmType.P4, wd, ht, mx⟩, vals⟩ 0
        = some ((data.map spec_p4_bit_samples).flatten)
      ∧ read_ppm_binary_image_data [128] ⟨⟨PpmType.P4, wd, ht, mx⟩, vals⟩ 0
        = some (PpmValue.new 0 0 0 :: List.replicate 7 (PpmValue.new 255 255 255)) := by
  constructor
  · simp [read_ppm_binary_image_data, p4_loop_eq]
  · have h128 : p4_loop [128]
        = some (PpmValue.new 0 0 0 :: List.replicate 7 (PpmValue.new 255 255 255)) := by
      decide
    simp [read_ppm_binary_image_data, h128]

/-- C5: the binary pixmap (P6) decoder emits each group of three data
bytes as one sample with the byte values unchanged, and its output never
depends on the declared max_value (or any other header field): no scaling
is applied on this path. -/
theorem c5_claim (wd ht mx wd2 ht2 mx2 : Int) (vals vals2 : List PpmValue)
    (data data2 : List Nat) (hd : 3 ∣ data.length) :
    read_ppm_binary_image_data data ⟨⟨PpmType.P6, wd, ht, mx⟩, vals⟩ 0
        = some (spec_p6_groups data)
      ∧ read_ppm_binary_image_data data2 ⟨⟨PpmType.P6, wd, ht, mx⟩, vals⟩ 0
        = read_ppm_binary_image_data data2 ⟨⟨PpmType.P6, wd2, ht2, mx2⟩, vals2⟩ 0 := by
  constructor
  · simpa [read_ppm_binary_image_data] using p6_loop_groups data hd (0, 0, 0)
  · simp [read_ppm_binary_image_data]

/-- Witness for C5 at a concrete input: six data bytes, two samples,
bytes unchanged. -/
theorem c5_witness :
    read_ppm_binary_image_data [1, 2, 3, 4, 5, 6] ⟨⟨PpmType.P6, 2, 1, 255⟩, []⟩ 0
        = some (spec_p6_groups [1, 2, 3, 4, 5, 6])
      ∧ read_ppm_binary_image_data [1, 2, 3] ⟨⟨PpmType.P6, 2, 1, 255⟩, []⟩ 0
        = read_ppm_binary_image_data [1, 2, 3] ⟨⟨PpmType.P6, 9, 9, 77⟩, []⟩ 0 := by
  have h := c5_claim 2 1 255 9 9 77 [] [] [1, 2, 3, 4, 5, 6] [1, 2, 3] (by decide)
  exact ⟨h.1, h.2⟩

/-- C7: for every binary bitmap (P4) input the decoder completes without
panicking and produces exactly eight samples per data byte, so the sample
count is 8 times the number of data bytes; with width 3 and height 1 a
single data byte already yields 8 samples, exceeding width times height. -/
theorem c7_claim (wd ht mx : Int) (vals : List PpmValue) (data : List Nat) :
    (read_ppm_binary_image_data data ⟨⟨PpmType.P4, wd, ht, mx⟩, vals⟩ 0).map List.length
        = some (8 * data.length)
      ∧ (read_ppm_binary_image_data [128] ⟨⟨PpmType.P4, 3, 1, 0⟩, []⟩ 0).map List.length
        = some 8
      ∧ (3 * 1 : Int) < 8 := by
  refine ⟨?_, by decide, by norm_num⟩
  simpa [read_ppm_binary_image_data] using p4_loop_length data

/-- C8: with no positional argument, or an empty first positional
argument, the program prints the message and exits with status code 0,
never reaching the decoding path. -/
theorem c8_claim (args : List String)
    (h : args.length ≤ 1 ∨ args.getD 1 "" = "") :
    main_select args = MainAction.exit_with_message "File Name is required." 0 := by
  unfold main_select
  rcases h with h | h
  · rw [if_pos h]
  · by_cases h1 : args.length ≤ 1
    · rw [if_pos h1]
    · rw [if_neg h1]
      rw [List.getD_eq_getElem?_getD] at h
      simp [h]

/-- Witness for C8 at concrete argument lists. -/
theorem c8_witness :
    main_select ["prog"] = MainAction.exit_with_message "File Name is required." 0
      ∧ main_select ["prog", ""] = MainAction.exit_with_message "File Name is required." 0 :=
  ⟨c8_claim ["prog"] (Or.inl (by decide)),
    c8_claim ["prog", ""] (Or.inr (by decide))⟩

/-- C9: once `single_draw` is set and a frame has been drawn
(`has_been_drawn` true), `World::draw` returns immediately: the frame
buffer and the whole `World` state are returned unchanged. -/
theorem c9_claim (w : World) (frame : List Nat)
    (h1 : w.single_draw = true) (h2 : w.has_been_drawn = true) :
    World.draw w frame = some (w, frame) := by
  unfold World.draw
  rw [if_pos ⟨h1, h2⟩]

/-- Witness for C9 at a concrete drawn state. -/
theorem c9_witness :
    World.draw ⟨some ⟨⟨PpmType.P3, 1, 1, 255⟩, [PpmValue.new 1 2 3]⟩, true, true⟩
        [9, 9, 9, 9]
      = some (⟨some ⟨⟨PpmType.P3, 1, 1, 255⟩, [PpmValue.new 1 2 3]⟩, true, true⟩,
          [9, 9, 9, 9]) :=
  c9_claim _ _ rfl rfl

/-- C10: `get_bit_at` returns `Err(())` exactly when `n >= 8`, returns
`Ok((input >> n) & 1 != 0)` when `n < 8`, and consequently the `unwrap`
of its result inside the P4 loop (whose bit index runs from 7 down to 0)
never panics: the P4 decoding path always returns a value. -/
theorem c10_claim (input n : Nat) (wd ht mx : Int) (vals : List PpmValue)
    (data : List Nat) :
    (get_bit_at input n = Except.error () ↔ 8 ≤ n)
      ∧ (n < 8 → get_bit_at input n = Except.ok (((input >>> n) &&& 1) != 0))
      ∧ (read_ppm_binary_image_data data ⟨⟨PpmType.P4, wd, ht, mx⟩, vals⟩ 0).isSome
          = true := by
  refine ⟨?_, ?_, ?_⟩
  · unfold get_bit_at
    by_cases hn : n < 8
    · rw [if_pos hn]
      simp
      omega
    · rw [if_neg hn]
      simp
      omega
  · intro hn
    unfold get_bit_at
    rw [if_pos hn, bit_and_shift_forms]
  · simp [read_ppm_binary_image_data, p4_loop_eq]

/-- Witness for C10 at bit 7 of byte 0b10000000 and a one-byte P4 stream. -/
theorem c10_witness :
    get_bit_at 128 7 = Except.ok (((128 >>> 7) &&& 1) != 0)
      ∧ (read_ppm_binary_image_data [7] ⟨⟨PpmType.P4, 1, 1, 0⟩, []⟩ 0).isSome = true :=
  ⟨(c10_claim 128 7 1 1 0 [] [7]).2.1 (by norm_num),
    (c10_claim 128 7 1 1 0 [] [7]).2.2⟩

/-- C1 counterexample: on the one-line pixmap input named by the claim the
ASCII decoder does not produce the six listed RGB triples; it produces
exactly one sample, built from the first three tokens of the data line,
because the P3 branch pushes a single `PpmValue::new(x[0], x[1], x[2])`
per line and discards the remaining fifteen tokens. -/
theorem c1_counterexample :
    read_ppm_ascii_file exC1 PpmType.P3 = some [PpmValue.new 255 0 0]
      ∧ read_ppm_ascii_file exC1 PpmType.P3 ≠ some exC1_six := by
  constructor
  · decide
  · decide

/-- C1 amended: for ASCII pixmap (P3) input each retained data line yields
exactly one sample, built from the line's first three integer tokens (the
rest of the line is discarded); on the claim's one-line input the header
decodes to width 3, height 2, max 255, but the data decodes to the single
sample (255,0,0); the six listed triples are produced only when each
triple sits on a line of its own. -/
theorem c1_claim :
    (∀ (dat : PPM) (va : List Nat) (x0 x1 x2 : Int) (xs : List Int),
      dat.header.ppm_type = PpmType.P3 →
      va.head? ≠ some 35 →
      ¬(dat.header.width = 0 ∧ dat.header.height = 0) →
      dat.header.max_value ≠ 0 →
      (splitWs (va.take (data_offset va))).mapM parse_i32 = some (x0 :: x1 :: x2 :: xs) →
      ascii_line dat va = some { dat with values := dat.values ++ [PpmValue.new x0 x1 x2] })
    ∧ read_ppm_header exC1 = some (11, ⟨PpmType.P3, 3, 2, 255⟩)
    ∧ read_ppm_ascii_file exC1 PpmType.P3 = some [PpmValue.new 255 0 0]
    ∧ read_ppm_ascii_file exC1_lines PpmType.P3 = some exC1_six := by
  refine ⟨?_, by decide, by decide, by decide⟩
  intro dat va x0 x1 x2 xs h1 h2 h3 h4 h5
  unfold ascii_line
  rw [if_neg h2, if_neg h3, if_neg (fun hc => h4 hc.1), h5]
  simp only [if_pos h1]

/-- Witness for C1 at a concrete state and data line with five tokens:
one sample from the first three. -/
theorem c1_witness :
    ascii_line ⟨⟨PpmType.P3, 3, 2, 255⟩, []⟩ (strBytes "10 20 30 40 50")
      = some ⟨⟨PpmType.P3, 3, 2, 255⟩, [PpmValue.new 10 20 30]⟩ :=
  c1_claim.1 ⟨⟨PpmType.P3, 3, 2, 255⟩, []⟩ (strBytes "10 20 30 40 50")
    10 20 30 [40, 50] rfl (by decide) (by decide) (by decide) (by decide)

/-- C2 counterexample: a malformed numeric token in the ASCII dimensions
line is not replaced by zero; the `parse::<i32>().unwrap()` panics, which
this embedding records as `none`, so the decoder aborts instead of
continuing. -/
theorem c2_counterexample : read_ppm_ascii_file exC2 PpmType.P3 = none := by
  decide

/-- C2 amended: malformed or missing numeric tokens default to zero in the
header tokenizer `read_ppm_header` - which returns a value for every byte
stream that carries the two magic bytes, silently yielding zeroed header
fields on corrupt input - and in the ASCII decoder's max-value line; but in
the ASCII decoder's dimensions line and sample-data lines a malformed
token aborts the program through `unwrap`. The conjuncts settle every
clause: (1) the header tokenizer returns a value for every byte content,
(2) on the all-garbage header it silently yields zeroed fields, (3) on any
max-value line whose wholesale parse fails the decoder continues with
max_value set to zero, (4) on any sample-data line whose token parse fails
the decoder aborts, whatever the variant, (5) the dimensions-line abort on
the concrete counterexample input, and (6) a whole-file data-line abort on
a concrete input with a well-formed header. -/
theorem c2_claim :
    (∀ s : List Nat, 2 ≤ s.length → (read_ppm_header s).isSome = true)
      ∧ read_ppm_header exC2hdr = some (8, ⟨PpmType.P6, 0, 0, 0⟩)
      ∧ (∀ (dat : PPM) (va : List Nat),
          va.head? ≠ some 35 →
          ¬(dat.header.width = 0 ∧ dat.header.height = 0) →
          dat.header.max_value = 0 →
          dat.header.ppm_type ≠ PpmType.P1 →
          parse_i32 va = none →
          ascii_line dat va
            = some { dat with header := { dat.header with max_value := 0 } })
      ∧ (∀ (dat : PPM) (va : List Nat),
          va.head? ≠ some 35 →
          ¬(dat.header.width = 0 ∧ dat.header.height = 0) →
          ¬(dat.header.max_value = 0 ∧ dat.header.ppm_type ≠ PpmType.P1) →
          (splitWs (va.take (data_offset va))).mapM parse_i32 = none →
          ascii_line dat va = none)
      ∧ read_ppm_ascii_file exC2 PpmType.P3 = none
      ∧ read_ppm_ascii_file exC2data PpmType.P3 = none := by
  refine ⟨?_, by decide, ?_, ?_, by decide, by decide⟩
  · intro s hs
    match s with
    | b0 :: b1 :: rest => rfl
    | [] => exact absurd hs (by decide)
    | [b0] =>
        simp only [List.length_cons, List.length_nil] at hs
        exact absurd hs (by omega)
  · intro dat va h1 h2 h3 h4 h5
    unfold ascii_line
    rw [if_neg h1, if_neg h2, if_pos ⟨h3, h4⟩]
    simp [parse_i32_default, h5]
  · intro dat va h1 h2 h3 h5
    unfold ascii_line
    rw [if_neg h1, if_neg h2, if_neg h3, h5]

/-- Witness for C2: the corrupt header, a malformed max-value line that
continues with zero, and a malformed sample-data line that aborts. -/
theorem c2_witness :
    (read_ppm_header exC2hdr).isSome = true
      ∧ ascii_line ⟨⟨PpmType.P2, 1, 1, 0⟩, []⟩ (strBytes "qq")
          = some ⟨⟨PpmType.P2, 1, 1, 0⟩, []⟩
      ∧ ascii_line ⟨⟨PpmType.P3, 1, 1, 255⟩, []⟩ (strBytes "9 zz 9") = none :=
  ⟨c2_claim.1 exC2hdr (by decide),
    c2_claim.2.2.1 ⟨⟨PpmType.P2, 1, 1, 0⟩, []⟩ (strBytes "qq")
      (by decide) (by decide) rfl (by decide) (by decide),
    c2_claim.2.2.2.1 ⟨⟨PpmType.P3, 1, 1, 255⟩, []⟩ (strBytes "9 zz 9")
      (by decide) (by decide) (by decide) (by decide)⟩

/-- In outer mode a whitespace byte is consumed without being counted in
`byte_position` (the source increments only for non-whitespace bytes at
the top of the outer loop), and scanning moves to the token-reading loop
with an empty buffer. -/
theorem scan_outer_ws (b : Nat) (hb : isWsByte b) (rest tok : List Nat) (bp : Nat)
    (hdr : PPMHeader) (hna : ¬ allSet hdr) :
    scan (b :: rest) ScanMode.outer tok bp hdr = scan rest ScanMode.inner [] bp hdr := by
  rcases hb with hb | hb | hb <;> subst hb <;> simp [scan, hna]

/-- The token-reading loop consumes a run of token bytes plus the single
whitespace byte that terminates it, counts every consumed byte, assigns
the accumulated token, and returns to the outer loop. -/
theorem scan_token (t : List Nat)
    (ht : ∀ b ∈ t, b ≠ 10 ∧ b ≠ 13 ∧ b ≠ 32 ∧ b ≠ 35) :
    ∀ (ws : Nat), isWsByte ws → ∀ (rest tok : List Nat) (bp : Nat) (hdr : PPMHeader),
      scan (t ++ ws :: rest) ScanMode.inner tok bp hdr
        = scan rest ScanMode.outer [] (bp + t.length + 1) (assignField hdr (tok ++ t)) := by
  induction t with
  | nil =>
      intro ws hws rest tok bp hdr
      rcases hws with hw | hw | hw <;> subst hw <;> simp [scan]
  | cons a t ih =>
      intro ws hws rest tok bp hdr
      have ha := ht a (List.mem_cons_self a t)
      have hstep : scan ((a :: t) ++ ws :: rest) ScanMode.inner tok bp hdr
          = scan (t ++ ws :: rest) ScanMode.inner (tok ++ [a]) (bp + 1) hdr := by
        rw [List.cons_append]
        simp [scan, ha.1, ha.2.1, ha.2.2.1, ha.2.2.2]
      rw [hstep, ih (fun b hb => ht b (List.mem_cons_of_mem a hb)) ws hws rest
        (tok ++ [a]) (bp + 1) hdr]
      have harith : bp + 1 + t.length + 1 = bp + (a :: t).length + 1 := by
        simp [List.length_cons]
        omega
      rw [harith, List.append_assoc, List.singleton_append]

/-- One whole header token processed from the top of the outer loop: the
first byte is counted and buffered there, the rest by the token loop. -/
theorem scan_outer_token (t : List Nat) (ht : goodTok t) (ws : Nat) (hws : isWsByte ws)
    (rest tok : List Nat) (bp : Nat) (hdr : PPMHeader) (hna : ¬ allSet hdr) :
    scan (t ++ ws :: rest) ScanMode.outer tok bp hdr
      = scan rest ScanMode.outer [] (bp + t.length + 1) (assignField hdr t) := by
  obtain ⟨hne, hall⟩ := ht
  match t, hne with
  | a :: t2, _ =>
    have ha := hall a (List.mem_cons_self a t2)
    have hstep : scan ((a :: t2) ++ ws :: rest) ScanMode.outer tok bp hdr
        = scan (t2 ++ ws :: rest) ScanMode.inner [a] (bp + 1) hdr := by
      rw [List.cons_append]
      simp [scan, hna, ha.1, ha.2.1, ha.2.2.1, ha.2.2.2]
    rw [hstep, scan_token t2 (fun b hb => hall b (List.mem_cons_of_mem a hb)) ws hws rest
      [a] (bp + 1) hdr]
    have harith : bp + 1 + t2.length + 1 = bp + (a :: t2).length + 1 := by
      simp [List.length_cons]
      omega
    rw [harith, List.singleton_append]

/-- Once all required fields are set, the next outer-loop read - whatever
byte it returns, or end of stream - increments `byte_position` once and
stops. -/
theorem scan_allSet (data tok : List Nat) (bp : Nat) (hdr : PPMHeader)
    (ha : allSet hdr) :
    scan data ScanMode.outer tok bp hdr = (bp + 1, hdr) := by
  cases data <;> simp [scan, ha]

/-- C3 counterexample: on `exC3`, whose width and height tokens are
separated by two space bytes, all required fields fill (the header is
P6, 3 x 2, max 255) but `read_ppm_header` returns offset 11, which is
the position of the whitespace byte (10) terminating the last header
token; the first pixel-data byte (68) sits at offset 12. The second
outer-loop whitespace byte was consumed without being counted, so the
returned offset undercounts by one. -/
theorem c3_counterexample :
    read_ppm_header exC3 = some (11, ⟨PpmType.P6, 3, 2, 255⟩)
      ∧ exC3[11]? = some 10
      ∧ exC3[12]? = some 68 := by
  refine ⟨by decide, by decide, by decide⟩

/-- C3 amended: the returned offset is the first pixel-data byte position
for headers in which every token is terminated by a single whitespace
byte and no extra whitespace or comment byte lands on an outer-loop read
(each such extra byte makes the returned offset undercount by one, as the
counterexample shows). Concretely: for any non-bitmap magic pair, any
three header tokens that parse to nonzero values, and any four single
whitespace separators, the scanner returns the header and the exact
offset of the byte following the last separator, whatever data follows. -/
theorem c3_claim (t2 : Nat) (w h m data : List Nat) (s1 s2 s3 s4 : Nat)
    (hw : goodTok w) (hh : goodTok h) (hm : goodTok m)
    (hpw : parse_i32_default w ≠ 0) (hph : parse_i32_default h ≠ 0)
    (hpm : parse_i32_default m ≠ 0)
    (hs1 : isWsByte s1) (hs2 : isWsByte s2) (hs3 : isWsByte s3) (hs4 : isWsByte s4)
    (ht1 : magicType 80 t2 ≠ PpmType.P1) (ht4 : magicType 80 t2 ≠ PpmType.P4) :
    read_ppm_header (80 :: t2 :: s1 :: (w ++ s2 :: (h ++ s3 :: (m ++ s4 :: data))))
        = some (6 + w.length + h.length + m.length,
            ⟨magicType 80 t2, parse_i32_default w, parse_i32_default h,
              parse_i32_default m⟩)
      ∧ (80 :: t2 :: s1 :: (w ++ s2 :: (h ++ s3 :: (m ++ s4 :: data)))).drop
          (6 + w.length + h.length + m.length) = data := by
  constructor
  · have hna0 : ¬ allSet ⟨magicType 80 t2, 0, 0, 0⟩ := by
      rintro ⟨hc, -⟩
      exact hc rfl
    have hna1 : ¬ allSet ⟨magicType 80 t2, parse_i32_default w, 0, 0⟩ := by
      rintro ⟨-, hc, -⟩
      exact hc rfl
    have hna2 : ¬ allSet ⟨magicType 80 t2, parse_i32_default w, parse_i32_default h, 0⟩ := by
      rintro ⟨-, -, h0 | h1 | h4⟩
      · exact h0 rfl
      · exact ht1 h1
      · exact ht4 h4
    have ha3 : allSet ⟨magicType 80 t2, parse_i32_default w, parse_i32_default h,
        parse_i32_default m⟩ := ⟨hpw, hph, Or.inl hpm⟩
    have hdr1eq : assignField ⟨magicType 80 t2, 0, 0, 0⟩ ([] ++ w)
        = ⟨magicType 80 t2, parse_i32_default w, 0, 0⟩ := by
      simp [assignField]
    have hdr2eq : assignField ⟨magicType 80 t2, parse_i32_default w, 0, 0⟩ h
        = ⟨magicType 80 t2, parse_i32_default w, parse_i32_default h, 0⟩ := by
      simp [assignField, hpw]
    have hdr3eq : assignField
        ⟨magicType 80 t2, parse_i32_default w, parse_i32_default h, 0⟩ m
        = ⟨magicType 80 t2, parse_i32_default w, parse_i32_default h,
            parse_i32_default m⟩ := by
      simp [assignField, hpw, hph]
      intro hc
      exact absurd hc (by simp [ht1, ht4])
    show some (scan (s1 :: (w ++ s2 :: (h ++ s3 :: (m ++ s4 :: data))))
        ScanMode.outer [] 2 ⟨magicType 80 t2, 0, 0, 0⟩) = _
    rw [scan_outer_ws s1 hs1 _ _ 2 _ hna0,
      scan_token w hw.2 s2 hs2 _ [] 2 _, hdr1eq,
      scan_outer_token h hh s3 hs3 _ [] _ _ hna1, hdr2eq,
      scan_outer_token m hm s4 hs4 _ [] _ _ hna2, hdr3eq,
      scan_allSet data [] _ _ ha3]
    have : 2 + w.length + 1 + h.length + 1 + m.length + 1 + 1
        = 6 + w.length + h.length + m.length := by omega
    rw [this]
  · have hshape : (80 :: t2 :: s1 :: (w ++ s2 :: (h ++ s3 :: (m ++ s4 :: data))))
        = (80 :: t2 :: s1 :: (w ++ s2 :: (h ++ s3 :: (m ++ [s4])))) ++ data := by
      simp [List.append_assoc]
    have hlen : (80 :: t2 :: s1 :: (w ++ s2 :: (h ++ s3 :: (m ++ [s4])))).length
        = 6 + w.length + h.length + m.length := by
      simp [List.length_append, List.length_cons]
      omega
    rw [hshape, ← hlen, List.drop_left]

/-- Witness for C3 on the single-whitespace header P6, 3 x 2, max 255
with one data byte: the returned offset 11 is exactly where the data
starts. -/
theorem c3_witness :
    read_ppm_header [80, 54, 10, 51, 10, 50, 10, 50, 53, 53, 10, 68]
        = some (11, ⟨PpmType.P6, 3, 2, 255⟩)
      ∧ ([80, 54, 10, 51, 10, 50, 10, 50, 53, 53, 10, 68] : List Nat).drop 11 = [68] := by
  have hc := c3_claim 54 [51] [50] [50, 53, 53] [68] 10 10 10 10
    (by decide) (by decide) (by decide) (by decide) (by decide) (by decide)
    (by decide) (by decide) (by decide) (by decide) (by decide) (by decide)
  exact ⟨hc.1, hc.2⟩

end PpmViewer
